import Mathlib

/-!
Verification development for the STIX import engine in
`taxii_service/parsers.py` (class STIXParser).

The Python source is shallowly embedded: each parser method becomes a Lean
function over explicit state.  External CRITs persistence handlers and
vocabulary tables (out of scope for the repository, per the specification)
are abstracted as an oracle record `Handlers`; their results are the
dictionary-shaped `PRes` values the source inspects.  Entity references are
opaque `Nat` handles.  A Python exception that escapes a method is modelled
as an `Option String` / `Except String` error value carrying the message.
-/

/-- Opaque handle to a persisted CRITs entity (`res['object']`). -/
abbrev EntityRef := Nat

/-- `self.imported`: mapping from source node id to (CRITs type, entity). -/
abbrev Ledger := List (String × (String × EntityRef))

/-- Lookup in an association list keyed by strings (Python `d[k]` / `k in d`). -/
def alistLookup {β : Type} : List (String × β) → String → Option β
  | [], _ => none
  | (k, v) :: t, k' => if k = k' then some v else alistLookup t k'

/-- Python dict assignment `d[k] = v`: replace the binding if present,
otherwise append it. -/
def ledgerInsert {β : Type} (k : String) (v : β) : List (String × β) → List (String × β)
  | [] => [(k, v)]
  | (k0, v0) :: t => if k0 = k then (k0, v) :: t else (k0, v0) :: ledgerInsert k v t

/-- Python `d.pop(k, None)`: the removed value (if any) and the remaining map. -/
def ledgerPop {β : Type} (k : String) : List (String × β) → Option β × List (String × β)
  | [] => (none, [])
  | (k0, v0) :: t =>
      if k0 = k then (some v0, t)
      else
        let r := ledgerPop k t
        (r.1, (k0, v0) :: r.2)

/-- The keys of an association list are pairwise distinct (dict invariant). -/
def nodupKeys {β : Type} (l : List (String × β)) : Prop := (l.map Prod.fst).Nodup

/-- Number of bindings carrying a given key. -/
def countKey {β : Type} (l : List (String × β)) (k : String) : Nat :=
  (l.filter (fun e => e.1 = k)).length

/-- `listPrefixOf p s`: the character list `p` is a prefix of `s`. -/
def listPrefixOf : List Char → List Char → Bool
  | [], _ => true
  | _ :: _, [] => false
  | a :: as, b :: bs => a = b && listPrefixOf as bs

/-- `listSubstr p s`: the character list `p` occurs contiguously in `s`. -/
def listSubstr (p : List Char) : List Char → Bool
  | [] => listPrefixOf p []
  | c :: rest => listPrefixOf p (c :: rest) || listSubstr p rest

/-- Python `pat in s` on strings: `pat` is a substring of `s`. -/
def strContains (s pat : String) : Bool := listSubstr pat.data s.data

/-- Is `c` one of the ASCII whitespace characters `str.strip()` removes. -/
def isSpaceChar (c : Char) : Bool :=
  c = ' ' || c = '\t' || c = '\n' || c = '\r' || c = '\x0b' || c = '\x0c'

/-- Python `value.strip()`: remove leading and trailing whitespace. -/
def pyStrip (s : String) : String :=
  ⟨((s.data.dropWhile isSpaceChar).reverse.dropWhile isSpaceChar).reverse⟩

/-- Result dictionary returned by a CRITs persistence handler.  Optional
fields model optional dictionary keys; `object` is the entity reference a
successful call carries (the handler contract guarantees its presence on
success, so it is modelled as total). -/
structure PRes where
  success : Option Bool
  status : Option Bool
  object : EntityRef
  reason : Option String
  message : Option String
deriving DecidableEq

/-- One record of `self.failed`: (message, node type name, source node id). -/
abbrev Failure := String × String × String

/-- One record of `self.relationships`: (left id, type, right id, confidence). -/
abbrev DeferredRel := String × String × String × String

/-- The mutable walk state of the parser: `self.imported`, `self.failed`,
`self.relationships`. -/
structure WalkState where
  imported : Ledger
  failed : List Failure
  relationships : List DeferredRel
deriving DecidableEq

def initWalk : WalkState := ⟨[], [], []⟩

/-- `STIXParser.parse_res`: record a handler result under the observable id,
or append a failure record. -/
def parse_res (imp_type obsId obsTypeName : String) (res : PRes) (st : WalkState) : WalkState :=
  let s := match res.success with
    | some b => some b
    | none => res.status
  match s with
  | some true => { st with imported := ledgerInsert obsId (imp_type, res.object) st.imported }
  | _ =>
      let msg := match res.reason with
        | some r => r
        | none =>
            match res.message with
            | some m => m
            | none => "Failed for unknown reason."
      { st with failed := st.failed ++ [(msg, obsTypeName, obsId)] }

/-- The shapes of CybOX object properties the source dispatches on.
`other` carries the object type and scalar values the external
`make_crits_object` would expose; `unsupported` is a CybOX object the
external mapper cannot handle (it raises). -/
inductive CyboxProps where
  | address (category : String) (values : List String)
  | domainName (values : List String)
  | artifact (data : String)
  | file (custom : List (String × String)) (fileName : String) (md5 : Option String)
      (related : List (Option (String × String))) (extracted : Option (List String))
  | email (payload : Nat) (attachments : List String)
  | other (objectType : String) (values : List String)
  | unsupported (msg : String)
deriving DecidableEq

/-- `type(item).__name__` for an object-properties value. -/
def propsTypeName : CyboxProps → String
  | .address _ _ => "Address"
  | .domainName _ => "DomainName"
  | .artifact _ => "Artifact"
  | .file _ _ _ _ _ => "File"
  | .email _ _ => "EmailMessage"
  | .other _ _ => "ObjectProperties"
  | .unsupported _ => "ObjectProperties"

/-- The API object the external `make_crits_object` returns: a CRITs object
type string and the scalar value list. -/
structure CritsObj where
  object_type : String
  value : List String
deriving DecidableEq

/-- Modelled from the spec: the external `object_mapper.make_crits_object`
collaborator (not part of this repository).  Per the spec it maps an
address-shaped node to the CRITs `Address` type, exposes a node's type tag
and scalar values, and raises on a CybOX object it does not handle. -/
def make_crits_object : CyboxProps → Except String CritsObj
  | .address _ vs => .ok ⟨"Address", vs⟩
  | .domainName vs => .ok ⟨"Domain", vs⟩
  | .other t vs => .ok ⟨t, vs⟩
  | .unsupported m => .error m
  | .artifact _ => .error "unhandled CybOX object type"
  | .file _ _ _ _ _ => .error "unhandled CybOX object type"
  | .email _ _ => .error "unhandled CybOX object type"

/-- A CybOX Object: its id (`item.parent.id_`) and optional properties. -/
structure CyObject where
  id_ : String
  properties : Option CyboxProps
deriving DecidableEq

/-- A non-composite observable (or one member of a composition):
id, `type(x).__name__`, and the optional object payload. -/
structure ObsLeaf where
  id_ : String
  typeName : String
  object_ : Option CyObject
deriving DecidableEq

/-- A STIX observable: its own payload plus an optional
`observable_composition` member list (the source reads only one level). -/
structure SObservable where
  leaf : ObsLeaf
  composition : Option (List ObsLeaf)
deriving DecidableEq

/-- A related indicator node (`rel.item`) as read by the auxiliary passes:
title, description, optional short description, timestamp (opaque `Nat`),
and the identity names of `producer.contributing_sources`. -/
structure RelatedInd where
  title : String
  description : String
  short_description : Option String
  timestamp : Nat
  producer_sources : List String
deriving DecidableEq

/-- A STIX indicator node as read by `parse_indicators` and the auxiliary
passes. -/
structure SIndicator where
  id_ : String
  title : String
  observables : List SObservable
  related : List RelatedInd
deriving DecidableEq

/-- A STIX threat actor (payload opaque to the claims under verification). -/
structure SThreatActor where
  id_ : String
  payload : Nat
deriving DecidableEq

/-- One STIX data-marking structure: a TLP marking carrying a colour
(possibly `None`), or some other marking type. -/
inductive MarkingStruct where
  | tlp (color : Option String)
  | other
deriving DecidableEq

/-- An existing CRITs comment as returned by the external `get_comments`. -/
structure CritsComment where
  edit_date : Nat
  text : String
deriving DecidableEq

/-- Oracle for the external CRITs handlers and vocabulary tables the engine
calls (external collaborators per the spec).  Arguments are restricted to
the data-dependent parts the source passes. -/
structure Handlers where
  does_source_exist : String → Bool
  get_crits_ip_type : String → Option String
  ip_add_update : String → String → PRes
  upsert_domain : String → PRes
  handle_raw_data_file : String → PRes
  handle_cert_file : String → Option String → PRes
  handle_pcap_file : String → Option String → PRes
  handle_file : String → Option String → Option String → PRes
  handle_email_fields : Nat → PRes
  handle_indicator_ind : String → String → PRes
  add_new_event : String → PRes
  add_campaign : Nat → Option EntityRef
  add_new_actor : Nat → PRes
  get_comments : EntityRef → String → List CritsComment

/-- The address categories recognised by the IP branch of
`parse_observables` (source lines 596-598). -/
def addressCats : List String :=
  ["cidr", "ipv4-addr", "ipv4-net", "ipv4-netmask", "ipv6-addr",
   "ipv6-net", "ipv6-netmask", "ipv6-subnet"]

/-- `Artifact.TYPE_NETWORK` of the CybOX library. -/
def TYPE_NETWORK : String := "Network Traffic"

/-- `Artifact.TYPE_FILE` of the CybOX library. -/
def TYPE_FILE : String := "File"

/-- `for obj in item.parent.related_objects: if isinstance(obj.properties,
Artifact): data = obj.properties.data` — the data of the last related
artifact (any type). -/
def lastArtifactData (related : List (Option (String × String))) : Option String :=
  related.foldl (fun acc r =>
    match r with
    | some (_, d) => some d
    | none => acc) none

/-- Same loop but keeping only artifacts of the given `type_`. -/
def lastTypedArtifactData (ty : String) (related : List (Option (String × String))) :
    Option String :=
  related.foldl (fun acc r =>
    match r with
    | some (t, d) => if t = ty then some d else acc
    | none => acc) none

/-- `STIXParser.has_network_artifact`. -/
def has_network_artifact (related : List (Option (String × String))) : Bool :=
  related.any (fun r =>
    match r with
    | some (t, _) => t = TYPE_NETWORK
    | none => false)

/-- The Certificate guard of the File branch: `item.custom_properties` is
non-empty and its first entry is `crits_type = "Certificate"`. -/
def certFileCond (custom : List (String × String)) : Bool :=
  match custom with
  | (n, v) :: _ => n = "crits_type" && v = "Certificate"
  | [] => false

/-- One iteration of the `for value in item.address_value.values` loop of
the IP branch (source lines 600-608). -/
def addrStep (H : Handlers) (obsId obsTypeName cat : String) (s : WalkState) (v : String) :
    WalkState :=
  match H.get_crits_ip_type cat with
  | some iptype => parse_res "IP" obsId obsTypeName (H.ip_add_update (pyStrip v) iptype) s
  | none => s

/-- One iteration of the `for value in obj.value` loop of the Indicator
fallback branch of `parse_observables` (source lines 731-741). -/
def fallbackIndStep (H : Handlers) (obsId obsTypeName ind_type : String) (s : WalkState)
    (v : String) : WalkState :=
  if v ≠ "" ∧ ind_type ≠ "" then
    parse_res "Indicator" obsId obsTypeName (H.handle_indicator_ind (pyStrip v) ind_type) s
  else s

/-- The final `else` branch of the `parse_observables` chain
(source lines 723-741): try to import as Indicator; an Address node is
skipped here because the free-standing Address branch already handled it.
The only modelled raise is `make_crits_object` on an unhandled object, and
it occurs before any state mutation of this branch. -/
def fallbackBranch (H : Handlers) (obsId obsTypeName : String) (item : CyboxProps)
    (st : WalkState) : WalkState × Option String :=
  match make_crits_object item with
  | .error e => (st, some e)
  | .ok obj =>
      if obj.object_type = "Address" then (st, none)
      else (obj.value.foldl (fallbackIndStep H obsId obsTypeName obj.object_type) st, none)

/-- The body of the per-member `try` block of `parse_observables`
(source lines 592-741), for one object-properties value.  Returns the
updated state and, when the block raises, the exception message.  An
Address first runs the free-standing IP branch (lines 595-608) and then,
not being a DomainName/Artifact/File/EmailMessage, falls through the
if/elif chain into the final `else` branch.  `parse_filenames` and the
other externally-persisted side effects touch no parser state and are not
represented. -/
def processItem (H : Handlers) (obsId obsTypeName : String) (item : CyboxProps)
    (st : WalkState) : WalkState × Option String :=
  match item with
  | .address cat vs =>
      let st1 := if addressCats.contains cat then
          vs.foldl (addrStep H obsId obsTypeName cat) st
        else st
      fallbackBranch H obsId obsTypeName (.address cat vs) st1
  | .domainName vs =>
      (vs.foldl (fun s v => parse_res "Domain" obsId obsTypeName (H.upsert_domain v) s) st, none)
  | .artifact d =>
      (parse_res "RawData" obsId obsTypeName (H.handle_raw_data_file d) st, none)
  | .file custom fileName md5 related _extracted =>
      if certFileCond custom then
        (parse_res "Certificate" obsId obsTypeName
          (H.handle_cert_file fileName (lastArtifactData related)) st, none)
      else if has_network_artifact related then
        (parse_res "PCAP" obsId obsTypeName
          (H.handle_pcap_file fileName (lastTypedArtifactData TYPE_NETWORK related)) st, none)
      else
        (parse_res "Sample" obsId obsTypeName
          (H.handle_file fileName md5 (lastTypedArtifactData TYPE_FILE related)) st, none)
  | .email payload attachments =>
      let res := H.handle_email_fields payload
      let st1 := parse_res "Email" obsId obsTypeName res st
      let st2 :=
        if res.status = some true ∧ attachments ≠ [] then
          { st1 with relationships := st1.relationships ++
              attachments.map (fun a => (obsId, "Contains", a, "High")) }
        else st1
      (st2, none)
  | .other t vs => fallbackBranch H obsId obsTypeName (.other t vs) st
  | .unsupported m => fallbackBranch H obsId obsTypeName (.unsupported m) st

/-- One member of the inner `for obs_comp in object_list` loop of
`parse_observables` (lines 585-745), including the missing-properties
guard and the per-member `except` clause. -/
def processObsComp (H : Handlers) (obsId obsTypeName : String) :
    ObsLeaf → WalkState → WalkState
  | ⟨cid, ctn, none⟩, st =>
      { st with failed := st.failed ++
          [("No valid object_properties was found!", ctn, cid)] }
  | ⟨cid, ctn, some ⟨_, none⟩⟩, st =>
      { st with failed := st.failed ++
          [("No valid object_properties was found!", ctn, cid)] }
  | ⟨_, _, some ⟨oid, some item⟩⟩, st =>
      match processItem H obsId obsTypeName item st with
      | (st1, none) => st1
      | (st1, some e) =>
          { st1 with failed := st1.failed ++ [(e, propsTypeName item, oid)] }

/-- `STIXParser.parse_observables`. -/
def parse_observables (H : Handlers) (observables : List SObservable) (st : WalkState) :
    WalkState :=
  observables.foldl (fun s obs =>
    let object_list := match obs.composition with
      | some comps => comps
      | none => [obs.leaf]
    object_list.foldl (fun s2 comp => processObsComp H obs.leaf.id_ obs.leaf.typeName comp s2) s)
    st

/-- The name the interpreter reports when `parse_indicators` evaluates the
undefined local `obs` in its missing-properties branch (source line 530):
the loop variable there is `observable`, `obs` is never bound. -/
def nameErrorObs : String := "NameError: global name obs is not defined"

/-- Result of `parse_indicators`: final state, the uncaught exception (if
one escaped), and whether the method returned `False` (the
"MARTI Campaign" short-circuit). -/
structure IndOut where
  st : WalkState
  exn : Option String
  stopCampaign : Bool
deriving DecidableEq

/-- The `for value in obj.value` loop of `parse_indicators`
(source lines 537-553): one `handle_indicator_ind` call per truthy value,
a success overwriting `self.imported[indicator.id_]`, a failure appending
one record. -/
def indValueStep (H : Handlers) (indId tyName objId ind_type : String) (s : WalkState)
    (v : String) : WalkState :=
  if v ≠ "" ∧ ind_type ≠ "" then
    if (H.handle_indicator_ind (pyStrip v) ind_type).success = some true then
      { s with imported :=
                 ledgerInsert indId ("Indicator", (H.handle_indicator_ind (pyStrip v) ind_type).object)
                   s.imported }
    else
      { s with failed :=
                 s.failed ++
                   [((H.handle_indicator_ind (pyStrip v) ind_type).message.getD "", tyName, objId)] }
  else s

def processIndValues (H : Handlers) (indId tyName objId ind_type : String)
    (values : List String) (st : WalkState) : WalkState :=
  values.foldl (indValueStep H indId tyName objId ind_type) st

/-- The `for observable in indicator.observables` loop of
`parse_indicators` (source lines 527-555).  A member without an object or
without object properties makes the source evaluate `type(obs).__name__`
with `obs` undefined, outside the `try` block, so the loop raises; an
exception inside the `try` block is caught and recorded per observable. -/
def processIndObservables (H : Handlers) (indId : String) :
    List SObservable → WalkState → WalkState × Option String
  | [], st => (st, none)
  | obs :: rest, st =>
      match obs.leaf.object_ with
      | none => (st, some nameErrorObs)
      | some o =>
          match o.properties with
          | none => (st, some nameErrorObs)
          | some item =>
              match make_crits_object item with
              | .error e =>
                  processIndObservables H indId rest
                    { st with failed := st.failed ++ [(e, propsTypeName item, o.id_)] }
              | .ok obj =>
                  processIndObservables H indId rest
                    (processIndValues H indId (propsTypeName item) o.id_ obj.object_type
                      obj.value st)

/-- `STIXParser.parse_indicators` (source lines 505-555). -/
def parse_indicators (H : Handlers) : List SIndicator → WalkState → IndOut
  | [], st => ⟨st, none, false⟩
  | ind :: rest, st =>
      if ind.title ≠ "" ∧ strContains ind.title "Top-Level Object" then
        -- indicator-wrapped observable (lines 517-523)
        let st1 := parse_observables H ind.observables st
        match ind.observables with
        | [] => ⟨st1, some "IndexError: list index out of range", false⟩
        | obs0 :: _ =>
            let p := ledgerPop obs0.leaf.id_ st1.imported
            let st2 := { st1 with imported :=
              match p.1 with
              | some v => ledgerInsert ind.id_ v p.2
              | none => p.2 }
            parse_indicators H rest st2
      else if ind.title ≠ "" ∧ strContains ind.title "MARTI Campaign" then
        ⟨st, none, true⟩  -- `return False` (line 525)
      else
        match processIndObservables H ind.id_ ind.observables st with
        | (st1, none) => parse_indicators H rest st1
        | (st1, some e) => ⟨st1, some e, false⟩

/-- `STIXParser.parse_campaigns` (source lines 251-260).  Called only when
`parse_indicators` returned `False`, which requires a non-empty indicator
list; `class_from_id` is modelled as yielding the returned id itself. -/
def parse_campaigns (H : Handlers) (indicators : List SIndicator) (campaigns : List Nat)
    (st : WalkState) : WalkState :=
  campaigns.foldl (fun s cp =>
    match H.add_campaign cp with
    | some cid =>
        match indicators with
        | ind0 :: _ => { s with imported := ledgerInsert ind0.id_ ("Campaign", cid) s.imported }
        | [] => s  -- unreachable under the caller guard (Python would raise IndexError)
    | none => s) st

/-- `STIXParser.parse_threat_actors` (source lines 442-503); the per-actor
tag updates touch only the external store. -/
def parse_threat_actors (H : Handlers) (tas : List SThreatActor) (st : WalkState) : WalkState :=
  tas.foldl (fun s ta =>
    let res := H.add_new_actor ta.payload
    if res.success = some true then
      { s with imported := ledgerInsert ta.id_ ("Actor", res.object) s.imported }
    else
      { s with failed := s.failed ++ [(res.message.getD "", "ThreatActor", "")] }) st

/-- The nested marking loop of `parse_tlp` (source lines 325-328): the local
`tlp` after the loops — `none` when it was never assigned. -/
def tlpInnerStep (a : Option (Option String)) (s : MarkingStruct) : Option (Option String) :=
  match s with
  | .tlp c => some c
  | .other => a

def findTLP (markings : List (List MarkingStruct)) : Option (Option String) :=
  markings.foldl (fun acc structs => structs.foldl tlpInnerStep acc) none

/-- `STIXParser.parse_tlp` (source lines 320-337).  When no TLP marking
structure was seen, reading `tlp` raises; otherwise the guarded branch
issues one external `set_tlp` call per ledgered indicator.  The returned
list is that call log (CRITs type, entity, colour). -/
def parse_tlp (markings : List (List MarkingStruct)) (indicators : List SIndicator)
    (led : Ledger) : Except String (List (String × EntityRef × String)) :=
  match findTLP markings with
  | none => .error "UnboundLocalError: local variable tlp referenced before assignment"
  | some tlpVal =>
      match tlpVal with
      | some c =>
          if c ≠ "" then
            .ok (indicators.foldl (fun acc ind =>
              match alistLookup led ind.id_ with
              | some kv => acc ++ [(kv.1, kv.2, c)]
              | none => acc) [])
          else .ok []
      | none => .ok []

/-- One external `comment_add` call issued by `parse_comments`. -/
structure CommentCall where
  comment : String
  url_key : String
  obj_type : String
  obj_id : EntityRef
  date : Nat
  source_analyst : Option String
deriving DecidableEq

/-- One iteration of the duplicate scan of `parse_comments`
(source lines 435-438). -/
def commentSendStep (ts : Nat) (text : String) (send : Bool) (c : CritsComment) : Bool :=
  if c.edit_date = ts then (if c.text = text then false else send) else send

/-- The duplicate check of `parse_comments` (source lines 435-438): the
`send` flag after scanning the existing comments. -/
def comment_send (comments : List CritsComment) (ts : Nat) (text : String) : Bool :=
  comments.foldl (commentSendStep ts text) true

/-- The body of the `for rel in ... related_indicators` loop of
`parse_comments` (source lines 421-440) for one related node: the
`comment_add` call it issues, if any.  Note the source's
`rel.item.title in 'CRITs Comment(s)'` tests that the title is a
substring of the literal. -/
def comment_action (H : Handlers) (obj_type : String) (obj_id : EntityRef)
    (rel : RelatedInd) : Option CommentCall :=
  if strContains "CRITs Comment(s)" rel.title then
    let comments := H.get_comments obj_id obj_type
    let url_key := match rel.short_description with
      | some s => s
      | none => toString obj_id
    let source_analyst := rel.producer_sources.foldl (fun _ s => some s) none
    if comment_send comments rel.timestamp rel.description then
      some ⟨rel.description, url_key, obj_type, obj_id, rel.timestamp, source_analyst⟩
    else none
  else none

/-- One iteration of the related-indicator loop of `parse_comments`:
append the issued call, if any. -/
def commentStep (H : Handlers) (obj_type : String) (obj_id : EntityRef)
    (a : List CommentCall) (rel : RelatedInd) : List CommentCall :=
  match comment_action H obj_type obj_id rel with
  | some call => a ++ [call]
  | none => a

/-- One iteration of the indicator loop of `parse_comments`: skip an
indicator absent from the ledger, otherwise scan its related nodes. -/
def commentIndStep (H : Handlers) (led : Ledger) (acc : List CommentCall)
    (ind : SIndicator) : List CommentCall :=
  match alistLookup led ind.id_ with
  | none => acc
  | some kv => ind.related.foldl (commentStep H kv.1 kv.2) acc

/-- `STIXParser.parse_comments` (source lines 410-440): the log of external
`comment_add` calls the pass issues.  Only ledgered indicators are
considered; `self` state is not modified. -/
def parse_comments (H : Handlers) (indicators : List SIndicator) (led : Ledger) :
    List CommentCall :=
  indicators.foldl (commentIndStep H led) []

/-- Modelled from the spec: the external relationship-type vocabulary
constant `RelationshipTypes.RELATED_TO` used for the default event edge. -/
def RELATED_TO : String := "Related_To"

/-- A relationship edge created by `relate_objects`
(`left.add_relationship(right, rel_type, rel_confidence)`). -/
structure Edge where
  left : EntityRef
  right : EntityRef
  rel_type : String
  confidence : String
deriving DecidableEq

/-- The parser state `relate_objects` reads: `self.event`,
`self.event_rels`, `self.relationships`, `self.imported`, `self.failed`. -/
structure RelateIn where
  event : Option EntityRef
  event_rels : List (String × (String × String))
  relationships : List DeferredRel
  imported : Ledger
  failed : List Failure
deriving DecidableEq

/-- Result of `relate_objects`: the edges created, and the failure list
(which the method never touches). -/
structure RelateOut where
  edges : List Edge
  failed : List Failure
deriving DecidableEq

/-- `STIXParser.relate_objects` (source lines 780-820).  The first loop
relates every ledgered entity to the Event (hinted type/confidence when the
id is in `event_rels`, the default otherwise, nothing for the Event's own
entry); the second loop creates one edge per deferred relationship whose
both endpoints are ledgered.  The final save loop only persists entities. -/
def relateEvStep (event_rels : List (String × (String × String))) (evt : EntityRef)
    (acc : List Edge) (e : String × (String × EntityRef)) : List Edge :=
  match alistLookup event_rels e.1 with
  | some rc => acc ++ [⟨evt, e.2.2, rc.1, rc.2⟩]
  | none =>
      if e.2.1 ≠ "Event" then acc ++ [⟨evt, e.2.2, RELATED_TO, "Unknown"⟩]
      else acc

def relateDefStep (led : Ledger) (acc : List Edge) (rel : DeferredRel) : List Edge :=
  match alistLookup led rel.1, alistLookup led rel.2.2.1 with
  | some lv, some rv => acc ++ [⟨lv.2, rv.2, rel.2.1, rel.2.2.2⟩]
  | _, _ => acc

def relate_objects (r : RelateIn) : RelateOut :=
  let evEdges := match r.event with
    | none => []
    | some evt => r.imported.foldl (relateEvStep r.event_rels evt) []
  let defEdges := r.relationships.foldl (relateDefStep r.imported) []
  ⟨evEdges ++ defEdges, r.failed⟩

/-- The per-entry edge of the event loop of `relate_objects`, as a
function of one ledger entry. -/
def eventEdgeFor (event_rels : List (String × (String × String))) (evt : EntityRef)
    (e : String × (String × EntityRef)) : Option Edge :=
  match alistLookup event_rels e.1 with
  | some rc => some ⟨evt, e.2.2, rc.1, rc.2⟩
  | none => if e.2.1 ≠ "Event" then some ⟨evt, e.2.2, RELATED_TO, "Unknown"⟩ else none

/-- The edge of the deferred-relationship loop of `relate_objects`, as a
function of one recorded relationship. -/
def defEdgeFor (led : Ledger) (rel : DeferredRel) : Option Edge :=
  match alistLookup led rel.1, alistLookup led rel.2.2.1 with
  | some lv, some rv => some ⟨lv.2, rv.2, rel.2.1, rel.2.2.2⟩
  | _, _ => none

/-- The package data `parse_stix` reads, as produced by the external STIX
parsing library.  `headerInfoSource` is
`stix_header.information_source.identity.name` when the whole chain is
present (`none` otherwise); `incidentRels` is the hint list extracted from
`incidents[0].related_indicators` (empty when there is no incident). -/
structure PackageModel where
  id_ : String
  headerPresent : Bool
  headerInfoSource : Option String
  headerTitle : Option String
  handling_markings : List (List MarkingStruct)
  incidentRels : List (String × (String × String))
  indicators : List SIndicator
  campaigns : List Nat
  observables : List SObservable
  threat_actors : List SThreatActor

/-- `does_source_exist` applied to the possibly-unset
`self.information_source`; a missing name is not a recognised source. -/
def doesSourceExistOpt (H : Handlers) : Option String → Bool
  | none => false
  | some s => H.does_source_exist s

/-- The reference string after the header block of `parse_stix`
(source lines 122-132): the caller reference with the
`STIX Source:` note appended whenever a non-empty document-declared
information-source name exists. -/
def build_reference (reference : String) (info : Option String) : String :=
  match info with
  | none => reference
  | some name =>
      if name = "" then reference
      else (if reference = "" then "" else reference ++ ", ") ++ ("STIX Source: " ++ name)

/-- The source-resolution block of `parse_stix` (source lines 122-141):
the chosen source name and the final reference, or the fatal error. -/
def parse_stix_sources (H : Handlers) (info : Option String) (reference source : String) :
    Except String (String × String) :=
  let ref := build_reference reference info
  if H.does_source_exist source then .ok (source, ref)
  else if doesSourceExistOpt H info then .ok (info.getD "", ref)
  else .error "No source to attribute data to."

/-- The `make_event` block of `parse_stix` (source lines 143-186): the
Event (if created), the event-relation hints, and the walk state it leaves
(`add_new_event` arguments other than the title only feed the external
store). -/
def eventPhase (H : Handlers) (pkg : PackageModel) (make_event : Bool) :
    Option EntityRef × List (String × (String × String)) × WalkState :=
  if make_event then
    let title := match pkg.headerTitle with
      | some t => if t ≠ "" then t else "STIX Document " ++ pkg.id_
      | none => "STIX Document " ++ pkg.id_
    let res := H.add_new_event title
    match res.success with
    | some true =>
        (some res.object, pkg.incidentRels,
         { imported := [(pkg.id_, ("Event", res.object))], failed := [], relationships := [] })
    | _ =>
        (none, [],
         { imported := [], failed := [(res.message.getD "", "STIX Event", "")],
           relationships := [] })
  else (none, [], initWalk)

/-- The observable state of one `parse_stix` run: the parser's `self`
fields together with the fatal exception, if one was raised. -/
structure RunResult where
  source_name : Option String
  information_source : Option String
  reference : Option String
  instances : List (String × String × String)
  event : Option EntityRef
  event_rels : List (String × (String × String))
  walk : WalkState
  fatal : Option String
deriving DecidableEq

/-- The tail of `parse_stix` after the indicator block (source lines
207-211): the observable walk, then the threat-actor walk. -/
def finishWalks (H : Handlers) (pkg : PackageModel) (base : RunResult) (st : WalkState) :
    RunResult :=
  let st2 := if pkg.observables ≠ [] then parse_observables H pkg.observables st else st
  let st3 := if pkg.threat_actors ≠ [] then parse_threat_actors H pkg.threat_actors st2 else st2
  { base with walk := st3 }

/-- `STIXParser.parse_stix` (source lines 99-211) on a freshly constructed
parser.  The auxiliary passes other than `parse_campaigns` and `parse_tlp`
(ttps, aliases, comments, relationship, sources, sectors, sightings,
kill chain, rfi, related campaigns, releasability) only issue calls to the
external store and do not change parser state; `parse_comments`' call log
is specified separately.  `parse_tlp` can raise, aborting the run. -/
def parse_stix (H : Handlers) (pkg : PackageModel) (reference : String) (make_event : Bool)
    (source analyst method : String) : RunResult :=
  match parse_stix_sources H pkg.headerInfoSource reference source with
  | .error e =>
      { source_name := none, information_source := pkg.headerInfoSource, reference := none,
        instances := [], event := none, event_rels := [], walk := initWalk, fatal := some e }
  | .ok nr =>
      let ev := eventPhase H pkg make_event
      let base : RunResult :=
        { source_name := some nr.1, information_source := pkg.headerInfoSource,
          reference := some nr.2, instances := [(analyst, method, nr.2)],
          event := ev.1, event_rels := ev.2.1, walk := ev.2.2, fatal := none }
      if pkg.indicators ≠ [] then
        let r := parse_indicators H pkg.indicators ev.2.2
        match r.exn with
        | some e => { base with walk := r.st, fatal := some e }
        | none =>
            let st1 := if r.stopCampaign then
                parse_campaigns H pkg.indicators pkg.campaigns r.st
              else r.st
            if pkg.headerPresent then
              match parse_tlp pkg.handling_markings pkg.indicators st1.imported with
              | .error e => { base with walk := st1, fatal := some e }
              | .ok _ => finishWalks H pkg base st1
            else finishWalks H pkg base st1
      else finishWalks H pkg base ev.2.2

/-! ### General lemmas about the embedded container operations -/

theorem foldl_step_filterMap {α β : Type _} (step : List β → α → List β) (f : α → Option β)
    (hstep : ∀ acc x, step acc x = acc ++ (f x).toList) :
    ∀ (l : List α) (acc : List β), l.foldl step acc = acc ++ l.filterMap f := by
  intro l
  induction l with
  | nil => intro acc; simp
  | cons x xs ih =>
      intro acc
      rw [List.foldl_cons, hstep, ih, List.filterMap_cons]
      cases f x <;> simp

theorem foldl_preserve {α σ : Type _} (P : σ → Prop) (step : σ → α → σ)
    (h : ∀ s x, P s → P (step s x)) :
    ∀ (l : List α) (s : σ), P s → P (l.foldl step s) := by
  intro l
  induction l with
  | nil => intro s hs; simpa using hs
  | cons x xs ih => intro s hs; rw [List.foldl_cons]; exact ih _ (h s x hs)

theorem alistLookup_ledgerInsert_self {β : Type} (k : String) (v : β) (l : List (String × β)) :
    alistLookup (ledgerInsert k v l) k = some v := by
  induction l with
  | nil => simp [ledgerInsert, alistLookup]
  | cons e t ih =>
      obtain ⟨k0, v0⟩ := e
      by_cases h : k0 = k
      · subst h; simp [ledgerInsert, alistLookup]
      · simp [ledgerInsert, alistLookup, h, ih]

theorem alistLookup_ledgerInsert_ne {β : Type} (k k' : String) (v : β)
    (l : List (String × β)) (h : k' ≠ k) :
    alistLookup (ledgerInsert k v l) k' = alistLookup l k' := by
  induction l with
  | nil => simp [ledgerInsert, alistLookup, Ne.symm h]
  | cons e t ih =>
      obtain ⟨k0, v0⟩ := e
      by_cases h0 : k0 = k
      · subst h0; simp [ledgerInsert, alistLookup, Ne.symm h]
      · simp [ledgerInsert, alistLookup, h0, ih]

theorem alistLookup_ledgerInsert_cases {β : Type} (k k' : String) (v : β)
    (l : List (String × β)) (w : β)
    (h : alistLookup (ledgerInsert k v l) k' = some w) :
    (k' = k ∧ w = v) ∨ alistLookup l k' = some w := by
  by_cases hk : k' = k
  · subst hk
    rw [alistLookup_ledgerInsert_self] at h
    exact Or.inl ⟨rfl, (Option.some.inj h).symm⟩
  · rw [alistLookup_ledgerInsert_ne _ _ _ _ hk] at h
    exact Or.inr h

theorem alistLookup_eq_none_of_not_mem {β : Type} (l : List (String × β)) (k : String)
    (h : k ∉ l.map Prod.fst) : alistLookup l k = none := by
  induction l with
  | nil => rfl
  | cons e t ih =>
      obtain ⟨k0, v0⟩ := e
      simp only [List.map_cons, List.mem_cons] at h
      push_neg at h
      simp [alistLookup, Ne.symm h.1, ih h.2]

theorem ledgerPop_fst {β : Type} (k : String) (l : List (String × β)) :
    (ledgerPop k l).1 = alistLookup l k := by
  induction l with
  | nil => rfl
  | cons e t ih =>
      obtain ⟨k0, v0⟩ := e
      by_cases h : k0 = k
      · simp [ledgerPop, alistLookup, h]
      · simp [ledgerPop, alistLookup, h, ih]

theorem ledgerPop_keys_sublist {β : Type} (k : String) (l : List (String × β)) :
    ((ledgerPop k l).2.map Prod.fst).Sublist (l.map Prod.fst) := by
  induction l with
  | nil => simp [ledgerPop]
  | cons e t ih =>
      obtain ⟨k0, v0⟩ := e
      by_cases h : k0 = k
      · simp [ledgerPop, h]
      · simpa [ledgerPop, h] using ih.cons₂ k0

theorem nodupKeys_ledgerPop {β : Type} (k : String) (l : List (String × β))
    (h : nodupKeys l) : nodupKeys (ledgerPop k l).2 :=
  (ledgerPop_keys_sublist k l).nodup h

theorem alistLookup_ledgerPop_self {β : Type} (k : String) (l : List (String × β))
    (h : nodupKeys l) : alistLookup (ledgerPop k l).2 k = none := by
  induction l with
  | nil => rfl
  | cons e t ih =>
      obtain ⟨k0, v0⟩ := e
      rw [nodupKeys, List.map_cons, List.nodup_cons] at h
      by_cases hk : k0 = k
      · subst hk
        simpa [ledgerPop] using alistLookup_eq_none_of_not_mem t k0 h.1
      · simp [ledgerPop, alistLookup, hk]
        exact ih h.2

theorem mem_keys_ledgerInsert {β : Type} (k k' : String) (v : β) (l : List (String × β))
    (h : k' ∈ (ledgerInsert k v l).map Prod.fst) : k' = k ∨ k' ∈ l.map Prod.fst := by
  induction l with
  | nil => simpa [ledgerInsert] using h
  | cons e t ih =>
      obtain ⟨k0, v0⟩ := e
      by_cases h0 : k0 = k
      · subst h0
        simpa [ledgerInsert] using h
      · simp only [ledgerInsert, if_neg h0, List.map_cons, List.mem_cons] at h
        rcases h with h | h
        · exact Or.inr (by simp [h])
        · rcases ih h with h1 | h1
          · exact Or.inl h1
          · exact Or.inr (by simp [h1])

theorem nodupKeys_ledgerInsert {β : Type} (k : String) (v : β) (l : List (String × β))
    (h : nodupKeys l) : nodupKeys (ledgerInsert k v l) := by
  induction l with
  | nil => simp [ledgerInsert, nodupKeys]
  | cons e t ih =>
      obtain ⟨k0, v0⟩ := e
      rw [nodupKeys, List.map_cons, List.nodup_cons] at h
      by_cases h0 : k0 = k
      · subst h0
        rw [nodupKeys]
        simpa [ledgerInsert, List.nodup_cons] using h
      · rw [nodupKeys]
        simp only [ledgerInsert, if_neg h0, List.map_cons, List.nodup_cons]
        refine ⟨fun hm => ?_, ih h.2⟩
        rcases mem_keys_ledgerInsert _ _ _ _ hm with h1 | h1
        · exact h0 h1
        · exact h.1 h1

theorem countKey_eq_zero_of_not_mem {β : Type} (l : List (String × β)) (k : String)
    (h : k ∉ l.map Prod.fst) : countKey l k = 0 := by
  induction l with
  | nil => rfl
  | cons e t ih =>
      obtain ⟨k0, v0⟩ := e
      simp only [List.map_cons, List.mem_cons] at h
      push_neg at h
      simp only [countKey, List.filter_cons, decide_eq_true_eq]
      rw [if_neg (Ne.symm h.1)]
      exact ih h.2

theorem countKey_eq_one {β : Type} (l : List (String × β)) (k : String) (v : β)
    (hn : nodupKeys l) (h : alistLookup l k = some v) : countKey l k = 1 := by
  induction l with
  | nil => simp [alistLookup] at h
  | cons e t ih =>
      obtain ⟨k0, v0⟩ := e
      rw [nodupKeys, List.map_cons, List.nodup_cons] at hn
      by_cases h0 : k0 = k
      · subst h0
        have h1 := countKey_eq_zero_of_not_mem t k0 hn.1
        rw [countKey] at h1 ⊢
        rw [List.filter_cons]
        simp only [decide_eq_true_eq]
        simp [h1]
      · rw [alistLookup, if_neg h0] at h
        simp only [countKey, List.filter_cons, decide_eq_true_eq]
        rw [if_neg h0]
        exact ih hn.2 h

/-! ### Lemmas about the embedded parser operations -/

theorem relateEvStep_eq (event_rels : List (String × (String × String))) (evt : EntityRef)
    (acc : List Edge) (e : String × (String × EntityRef)) :
    relateEvStep event_rels evt acc e = acc ++ (eventEdgeFor event_rels evt e).toList := by
  rw [relateEvStep, eventEdgeFor]
  cases alistLookup event_rels e.1
  · by_cases he : e.2.1 = "Event" <;> simp [he]
  · simp

theorem relateDefStep_eq (led : Ledger) (acc : List Edge) (rel : DeferredRel) :
    relateDefStep led acc rel = acc ++ (defEdgeFor led rel).toList := by
  rw [relateDefStep, defEdgeFor]
  cases alistLookup led rel.1 <;> cases alistLookup led rel.2.2.1 <;> simp

theorem commentStep_eq (H : Handlers) (obj_type : String) (obj_id : EntityRef)
    (a : List CommentCall) (rel : RelatedInd) :
    commentStep H obj_type obj_id a rel = a ++ (comment_action H obj_type obj_id rel).toList := by
  rw [commentStep]
  cases comment_action H obj_type obj_id rel <;> simp

theorem relate_objects_edges (r : RelateIn) :
    (relate_objects r).edges
      = (match r.event with
         | some evt => r.imported.filterMap (eventEdgeFor r.event_rels evt)
         | none => [])
        ++ r.relationships.filterMap (defEdgeFor r.imported) := by
  rw [relate_objects]
  cases r.event with
  | none =>
      simp only []
      rw [foldl_step_filterMap (relateDefStep r.imported) (defEdgeFor r.imported)
        (relateDefStep_eq r.imported) r.relationships []]
      simp
  | some evt =>
      simp only []
      rw [foldl_step_filterMap (relateEvStep r.event_rels evt) (eventEdgeFor r.event_rels evt)
        (relateEvStep_eq r.event_rels evt) r.imported []]
      rw [foldl_step_filterMap (relateDefStep r.imported) (defEdgeFor r.imported)
        (relateDefStep_eq r.imported) r.relationships []]
      simp

theorem commentSendStep_eq (ts : Nat) (text : String) (send : Bool) (c : CritsComment) :
    commentSendStep ts text send c
      = (send && !(decide (c.edit_date = ts) && decide (c.text = text))) := by
  rw [commentSendStep]
  by_cases h1 : c.edit_date = ts <;> by_cases h2 : c.text = text <;> simp [h1, h2]

theorem comment_send_spec (comments : List CritsComment) (ts : Nat) (text : String) :
    comment_send comments ts text = true
      ↔ ∀ c ∈ comments, ¬(c.edit_date = ts ∧ c.text = text) := by
  rw [comment_send]
  have haux : ∀ (l : List CritsComment) (b : Bool),
      l.foldl (commentSendStep ts text) b = true
        ↔ (b = true ∧ ∀ c ∈ l, ¬(c.edit_date = ts ∧ c.text = text)) := by
    intro l
    induction l with
    | nil => intro b; simp
    | cons c cs ih =>
        intro b
        rw [List.foldl_cons, commentSendStep_eq, ih]
        by_cases h1 : c.edit_date = ts <;> by_cases h2 : c.text = text <;>
          simp [h1, h2, and_assoc]
  simpa using haux comments true

theorem tlpInner_id : ∀ (structs : List MarkingStruct),
    (∀ s ∈ structs, s = MarkingStruct.other) →
    ∀ acc, structs.foldl tlpInnerStep acc = acc := by
  intro structs
  induction structs with
  | nil => intro _ acc; rfl
  | cons s rest ih =>
      intro h acc
      have hs := h s (List.mem_cons_self s rest)
      subst hs
      rw [List.foldl_cons]
      exact ih (fun x hx => h x (List.mem_cons_of_mem _ hx)) acc

theorem findTLP_eq_none (markings : List (List MarkingStruct))
    (h : ∀ m ∈ markings, ∀ s ∈ m, s = MarkingStruct.other) : findTLP markings = none := by
  rw [findTLP]
  suffices haux : ∀ (ms : List (List MarkingStruct)),
      (∀ m ∈ ms, ∀ s ∈ m, s = MarkingStruct.other) →
      ∀ acc, ms.foldl (fun acc structs => structs.foldl tlpInnerStep acc) acc = acc by
    exact haux markings h none
  intro ms
  induction ms with
  | nil => intro _ acc; rfl
  | cons m rest ih =>
      intro hh acc
      rw [List.foldl_cons]
      show List.foldl _ (m.foldl tlpInnerStep acc) rest = acc
      rw [tlpInner_id m (hh m (List.mem_cons_self m rest)) acc]
      exact ih (fun x hx => hh x (List.mem_cons_of_mem _ hx)) acc

theorem parse_res_nodup (a b c : String) (res : PRes) (st : WalkState)
    (h : nodupKeys st.imported) : nodupKeys (parse_res a b c res st).imported := by
  rw [parse_res]
  split
  · exact nodupKeys_ledgerInsert _ _ _ h
  · exact h

theorem addrStep_nodup (H : Handlers) (a b cat : String) (s : WalkState) (v : String)
    (h : nodupKeys s.imported) : nodupKeys (addrStep H a b cat s v).imported := by
  rw [addrStep]
  split
  · exact parse_res_nodup _ _ _ _ _ h
  · exact h

theorem fallbackIndStep_nodup (H : Handlers) (a b t : String) (s : WalkState) (v : String)
    (h : nodupKeys s.imported) : nodupKeys (fallbackIndStep H a b t s v).imported := by
  rw [fallbackIndStep]
  split
  · exact parse_res_nodup _ _ _ _ _ h
  · exact h

theorem indValueStep_nodup (H : Handlers) (a b c t : String) (s : WalkState) (v : String)
    (h : nodupKeys s.imported) : nodupKeys (indValueStep H a b c t s v).imported := by
  rw [indValueStep]
  split
  · split
    · exact nodupKeys_ledgerInsert _ _ _ h
    · exact h
  · exact h

theorem fallbackBranch_nodup (H : Handlers) (a b : String) (item : CyboxProps)
    (st : WalkState) (h : nodupKeys st.imported) :
    nodupKeys (fallbackBranch H a b item st).1.imported := by
  rw [fallbackBranch]
  split
  · exact h
  · split
    · exact h
    · rename_i obj heq hcond
      exact foldl_preserve (fun s => nodupKeys s.imported) _
        (fun s v hs => fallbackIndStep_nodup H a b obj.object_type s v hs) obj.value st h

theorem processItem_nodup (H : Handlers) (a b : String) (item : CyboxProps) (st : WalkState)
    (h : nodupKeys st.imported) : nodupKeys (processItem H a b item st).1.imported := by
  cases item with
  | address cat vs =>
      simp only [processItem]
      refine fallbackBranch_nodup H a b _ _ ?_
      split
      · exact foldl_preserve (fun s => nodupKeys s.imported) _
          (fun s v hs => addrStep_nodup H a b cat s v hs) vs st h
      · exact h
  | domainName vs =>
      simp only [processItem]
      exact foldl_preserve (fun s => nodupKeys s.imported) _
        (fun s v hs => parse_res_nodup _ _ _ _ _ hs) vs st h
  | artifact d =>
      simp only [processItem]
      exact parse_res_nodup _ _ _ _ _ h
  | file custom fn md5 rel ext =>
      simp only [processItem]
      split
      · exact parse_res_nodup _ _ _ _ _ h
      · split
        · exact parse_res_nodup _ _ _ _ _ h
        · exact parse_res_nodup _ _ _ _ _ h
  | email payload att =>
      simp only [processItem]
      split
      · exact parse_res_nodup _ _ _ _ _ h
      · exact parse_res_nodup _ _ _ _ _ h
  | other t vs =>
      simp only [processItem]
      exact fallbackBranch_nodup H a b _ _ h
  | unsupported m =>
      simp only [processItem]
      exact fallbackBranch_nodup H a b _ _ h

theorem processObsComp_nodup (H : Handlers) (a b : String) (comp : ObsLeaf) (st : WalkState)
    (h : nodupKeys st.imported) : nodupKeys (processObsComp H a b comp st).imported := by
  obtain ⟨cid, ctn, cobj⟩ := comp
  cases cobj with
  | none => exact h
  | some o =>
      obtain ⟨oid, oprops⟩ := o
      cases oprops with
      | none => exact h
      | some item =>
          have hh := processItem_nodup H a b item st h
          simp only [processObsComp]
          cases hpi : processItem H a b item st with
          | mk st1 exn =>
              rw [hpi] at hh
              cases exn
              · exact hh
              · exact hh

theorem parse_observables_nodup (H : Handlers) (observables : List SObservable)
    (st : WalkState) (h : nodupKeys st.imported) :
    nodupKeys (parse_observables H observables st).imported := by
  rw [parse_observables]
  refine foldl_preserve (fun s => nodupKeys s.imported) _ ?_ observables st h
  intro s obs hs
  exact foldl_preserve (fun s => nodupKeys s.imported) _
    (fun s2 comp hs2 => processObsComp_nodup H obs.leaf.id_ obs.leaf.typeName comp s2 hs2) _ s hs

/-- The last value of the list (in processing order) whose
`handle_indicator_ind` call succeeds (empty values are skipped and never
submitted). -/
def lastSuccessValue (H : Handlers) (t : String) : List String → Option String
  | [] => none
  | v :: rest =>
      match lastSuccessValue H t rest with
      | some w => some w
      | none =>
          if v ≠ "" ∧ (H.handle_indicator_ind (pyStrip v) t).success = some true then some v
          else none

/-- The values of the list that are submitted to `handle_indicator_ind`
and whose call fails. -/
def failingValues (H : Handlers) (t : String) (vs : List String) : List String :=
  vs.filter (fun v => decide (v ≠ "" ∧ (H.handle_indicator_ind (pyStrip v) t).success ≠ some true))

theorem failingValues_cons (H : Handlers) (t v : String) (rest : List String) :
    failingValues H t (v :: rest)
      = if v ≠ "" ∧ (H.handle_indicator_ind (pyStrip v) t).success ≠ some true
        then v :: failingValues H t rest else failingValues H t rest := by
  rw [failingValues, List.filter_cons]
  by_cases h : v ≠ "" ∧ (H.handle_indicator_ind (pyStrip v) t).success ≠ some true <;>
    simp [h, failingValues]

theorem processIndValues_spec (H : Handlers) (indId tyName objId t : String) (ht : t ≠ "") :
    ∀ (vs : List String) (st : WalkState),
      alistLookup (processIndValues H indId tyName objId t vs st).imported indId
          = (match lastSuccessValue H t vs with
             | some v => some ("Indicator", (H.handle_indicator_ind (pyStrip v) t).object)
             | none => alistLookup st.imported indId)
        ∧ (processIndValues H indId tyName objId t vs st).failed
          = st.failed ++ (failingValues H t vs).map
              (fun v => ((H.handle_indicator_ind (pyStrip v) t).message.getD "", tyName, objId))
        ∧ (processIndValues H indId tyName objId t vs st).relationships
          = st.relationships := by
  intro vs
  induction vs with
  | nil =>
      intro st
      refine ⟨rfl, by simp [processIndValues, failingValues], rfl⟩
  | cons v rest ih =>
      intro st
      rw [processIndValues, List.foldl_cons]
      have hstep : List.foldl (indValueStep H indId tyName objId t)
          (indValueStep H indId tyName objId t st v) rest
          = processIndValues H indId tyName objId t rest
              (indValueStep H indId tyName objId t st v) := rfl
      rw [hstep]
      by_cases hv : v = ""
      · subst hv
        have hs : indValueStep H indId tyName objId t st "" = st := by
          rw [indValueStep]
          simp
        rw [hs]
        obtain ⟨ih1, ih2, ih3⟩ := ih st
        refine ⟨?_, ?_, ih3⟩
        · rw [ih1, lastSuccessValue]
          cases lastSuccessValue H t rest <;> simp
        · rw [ih2, failingValues_cons]
          simp
      · by_cases hsucc : (H.handle_indicator_ind (pyStrip v) t).success = some true
        · have hs : indValueStep H indId tyName objId t st v
              = { st with
                  imported :=
                    ledgerInsert indId
                      ("Indicator", (H.handle_indicator_ind (pyStrip v) t).object) st.imported } := by
            rw [indValueStep, if_pos (And.intro hv ht), if_pos hsucc]
          rw [hs]
          obtain ⟨ih1, ih2, ih3⟩ := ih { st with
            imported :=
              ledgerInsert indId
                ("Indicator", (H.handle_indicator_ind (pyStrip v) t).object) st.imported }
          refine ⟨?_, ?_, ih3⟩
          · rw [ih1, lastSuccessValue]
            cases lastSuccessValue H t rest with
            | some w => simp
            | none =>
                simp only [if_pos (And.intro hv hsucc)]
                exact alistLookup_ledgerInsert_self _ _ _
          · rw [ih2, failingValues_cons]
            simp [hsucc]
        · have hs : indValueStep H indId tyName objId t st v
              = { st with
                  failed :=
                    st.failed ++
                      [((H.handle_indicator_ind (pyStrip v) t).message.getD "", tyName, objId)] } := by
            rw [indValueStep, if_pos (And.intro hv ht), if_neg hsucc]
          rw [hs]
          obtain ⟨ih1, ih2, ih3⟩ := ih { st with
            failed :=
              st.failed ++
                [((H.handle_indicator_ind (pyStrip v) t).message.getD "", tyName, objId)] }
          refine ⟨?_, ?_, ih3⟩
          · rw [ih1, lastSuccessValue]
            cases lastSuccessValue H t rest with
            | some w => simp
            | none => simp [hv, hsucc]
          · rw [ih2, failingValues_cons]
            simp [hv, hsucc]

/-! ### Concrete fixtures used by the closed instances below -/

/-- A successful handler result carrying entity `o`. -/
def okPRes (o : EntityRef) : PRes := ⟨some true, none, o, none, some ""⟩

/-- A failed handler result carrying message `m`. -/
def failPRes (m : String) : PRes := ⟨some false, none, 0, none, some m⟩

/-- A concrete oracle: no recognised sources, all persistence calls
succeed, no vocabulary entries, no existing comments. -/
def baseHandlers : Handlers where
  does_source_exist := fun _ => false
  get_crits_ip_type := fun _ => none
  ip_add_update := fun _ _ => okPRes 1
  upsert_domain := fun _ => okPRes 2
  handle_raw_data_file := fun _ => okPRes 3
  handle_cert_file := fun _ _ => okPRes 4
  handle_pcap_file := fun _ _ => okPRes 5
  handle_file := fun _ _ _ => okPRes 6
  handle_email_fields := fun _ => okPRes 7
  handle_indicator_ind := fun _ _ => okPRes 8
  add_new_event := fun _ => okPRes 9
  add_campaign := fun _ => none
  add_new_actor := fun _ => okPRes 10
  get_comments := fun _ _ => []

/-! ### C2: deferred relationships -/

/--
C2.  For every deferred relationship (leftId, relationType, rightId,
confidence) recorded during the walk: after `relate_objects` runs, if both
leftId and rightId are keys of the import ledger then an edge with exactly
the recorded relationType and confidence is created between the two ledger
entities; if either endpoint is absent from the ledger, that relationship
contributes no edge (the edge list is exactly the event edges followed by
the per-relationship images, and the image of a relationship with a
missing endpoint is `none`) and nothing is appended to the failure list.
-/
theorem relate_objects_deferred_spec (r : RelateIn) (l t rid c : String)
    (hm : (l, t, rid, c) ∈ r.relationships) :
    (relate_objects r).failed = r.failed
    ∧ (relate_objects r).edges
        = (match r.event with
           | some evt => r.imported.filterMap (eventEdgeFor r.event_rels evt)
           | none => [])
          ++ r.relationships.filterMap (defEdgeFor r.imported)
    ∧ (∀ lv rv, alistLookup r.imported l = some lv → alistLookup r.imported rid = some rv →
        defEdgeFor r.imported (l, t, rid, c) = some ⟨lv.2, rv.2, t, c⟩
        ∧ Edge.mk lv.2 rv.2 t c ∈ (relate_objects r).edges)
    ∧ ((alistLookup r.imported l = none ∨ alistLookup r.imported rid = none) →
        defEdgeFor r.imported (l, t, rid, c) = none) := by
  refine ⟨rfl, relate_objects_edges r, ?_, ?_⟩
  · intro lv rv h1 h2
    have hd : defEdgeFor r.imported (l, t, rid, c) = some ⟨lv.2, rv.2, t, c⟩ := by
      simp [defEdgeFor, h1, h2]
    refine ⟨hd, ?_⟩
    rw [relate_objects_edges r]
    refine List.mem_append_right _ ?_
    exact List.mem_filterMap.mpr ⟨(l, t, rid, c), hm, hd⟩
  · intro h
    rcases h with h | h
    · cases h2 : alistLookup r.imported rid <;> simp [defEdgeFor, h, h2]
    · cases h1 : alistLookup r.imported l <;> simp [defEdgeFor, h, h1]

def relateFixture2 : RelateIn :=
  { event := none
    event_rels := []
    relationships := [("a", "Contains", "b", "High"), ("a", "Drops", "missing", "Low")]
    imported := [("a", ("Indicator", 3)), ("b", ("Sample", 4))]
    failed := [("msg", "T", "id")] }

theorem relate_objects_deferred_witness :
    (relate_objects relateFixture2).failed = [("msg", "T", "id")]
    ∧ Edge.mk 3 4 "Contains" "High" ∈ (relate_objects relateFixture2).edges
    ∧ defEdgeFor relateFixture2.imported ("a", "Drops", "missing", "Low") = none := by
  have h1 := relate_objects_deferred_spec relateFixture2 "a" "Contains" "b" "High" (by decide)
  have h2 := relate_objects_deferred_spec relateFixture2 "a" "Drops" "missing" "Low" (by decide)
  exact ⟨h1.1,
    (h1.2.2.1 ("Indicator", 3) ("Sample", 4) (by decide) (by decide)).2,
    h2.2.2.2 (Or.inr (by decide))⟩

/-! ### C3: event edges -/

/--
C3.  When an Event was created for the run, `relate_objects` gives every
ledger entry whose id has no event-relation hint and whose entity kind is
not "Event" exactly one edge to the Event with relation type `RELATED_TO`
and confidence "Unknown" (the event edge list is the per-entry image of
the ledger, so each entry contributes exactly its one image edge); every
ledger entry whose id does have a hint gets an edge with the hinted type
and confidence instead.
-/
theorem relate_objects_event_edges (r : RelateIn) (evt : EntityRef) (h : r.event = some evt) :
    (relate_objects r).edges
      = r.imported.filterMap (eventEdgeFor r.event_rels evt)
        ++ r.relationships.filterMap (defEdgeFor r.imported)
    ∧ (∀ id kind obj, alistLookup r.event_rels id = none → kind ≠ "Event" →
        eventEdgeFor r.event_rels evt (id, (kind, obj))
          = some ⟨evt, obj, RELATED_TO, "Unknown"⟩)
    ∧ (∀ id kind obj rt rc, alistLookup r.event_rels id = some (rt, rc) →
        eventEdgeFor r.event_rels evt (id, (kind, obj)) = some ⟨evt, obj, rt, rc⟩)
    ∧ (∀ id obj, alistLookup r.event_rels id = none →
        eventEdgeFor r.event_rels evt (id, ("Event", obj)) = none) := by
  refine ⟨?_, ?_, ?_, ?_⟩
  · rw [relate_objects_edges r, h]
  · intro id kind obj hn hk
    simp [eventEdgeFor, hn, hk]
  · intro id kind obj rt rc hs
    simp [eventEdgeFor, hs]
  · intro id obj hn
    simp [eventEdgeFor, hn]

def relateFixture3 : RelateIn :=
  { event := some 7
    event_rels := [("b", ("Drops", "High"))]
    relationships := []
    imported := [("a", ("Indicator", 3)), ("b", ("Sample", 4)), ("evt-id", ("Event", 7))]
    failed := [] }

theorem relate_objects_event_edges_witness :
    (relate_objects relateFixture3).edges
      = [Edge.mk 7 3 RELATED_TO "Unknown", Edge.mk 7 4 "Drops" "High"]
    ∧ eventEdgeFor relateFixture3.event_rels 7 ("a", ("Indicator", 3))
        = some ⟨7, 3, RELATED_TO, "Unknown"⟩
    ∧ eventEdgeFor relateFixture3.event_rels 7 ("b", ("Sample", 4))
        = some ⟨7, 4, "Drops", "High"⟩
    ∧ eventEdgeFor relateFixture3.event_rels 7 ("evt-id", ("Event", 7)) = none := by
  have h := relate_objects_event_edges relateFixture3 7 rfl
  refine ⟨?_, h.2.1 "a" "Indicator" 3 (by decide) (by decide),
    h.2.2.1 "b" "Sample" 4 "Drops" "High" (by decide),
    h.2.2.2 "evt-id" 7 (by decide)⟩
  rw [h.1]
  decide

/-! ### C10: the TLP pass is not total -/

/--
C10.  When the document header carries a handling section whose markings
contain no TLP marking structure, `parse_tlp` reads the local `tlp` before
any assignment and raises (modelled as the error return) rather than
recording a failure or leaving the indicators untouched.
-/
theorem parse_tlp_unbound_local (markings : List (List MarkingStruct))
    (indicators : List SIndicator) (led : Ledger)
    (h : ∀ m ∈ markings, ∀ s ∈ m, s = MarkingStruct.other) :
    parse_tlp markings indicators led
      = .error "UnboundLocalError: local variable tlp referenced before assignment" := by
  rw [parse_tlp, findTLP_eq_none markings h]

theorem parse_tlp_unbound_local_witness :
    parse_tlp [[MarkingStruct.other], []] [] []
      = .error "UnboundLocalError: local variable tlp referenced before assignment" :=
  parse_tlp_unbound_local [[MarkingStruct.other], []] [] [] (by decide)

/-! ### C6: missing object-properties in the indicator walk raises -/

def badInd6 : SIndicator := ⟨"ind-bad", "", [⟨⟨"obs-bad", "Observable", none⟩, none⟩], []⟩

def goodInd6 : SIndicator :=
  ⟨"ind-good", "",
   [⟨⟨"obs-good", "Observable", some ⟨"obj-good", some (.other "URI" ["evil.example"])⟩⟩, none⟩],
   []⟩

/--
C6.  The claim says a node lacking an object-properties payload gets a
failure record (message, type label, node id) appended, in both walks, and
processing continues.  The observable walk does behave that way, but in
the indicator walk the failure branch evaluates the undefined name `obs`
(source line 530; the loop variable is `observable`), so the run raises a
NameError instead: no failure is recorded and the sibling indicator is
never processed.
-/
theorem indicator_missing_props_raises :
    (parse_indicators baseHandlers [badInd6, goodInd6] initWalk).exn = some nameErrorObs
    ∧ (parse_indicators baseHandlers [badInd6, goodInd6] initWalk).st.failed = []
    ∧ (parse_indicators baseHandlers [badInd6, goodInd6] initWalk).st.imported = []
    ∧ (parse_observables baseHandlers [⟨⟨"obs-bad", "Observable", none⟩, none⟩] initWalk).failed
        = [("No valid object_properties was found!", "Observable", "obs-bad")]
    ∧ (parse_observables baseHandlers [⟨⟨"obs-bad", "Observable", none⟩, none⟩] initWalk).imported
        = [] := by
  decide

/-! ### C8: the comment pass is idempotent -/

theorem commentIndStep_some (H : Handlers) (led : Ledger) (acc : List CommentCall)
    (ind : SIndicator) (kv : String × EntityRef)
    (h : alistLookup led ind.id_ = some kv) :
    commentIndStep H led acc ind = ind.related.foldl (commentStep H kv.1 kv.2) acc := by
  rw [commentIndStep, h]

/--
C8.  The comment pass is idempotent: for a ledgered indicator, the pass
issues exactly the per-related-node images; a related comment node for
which the entity already has a comment with the same edit timestamp and
the same text issues no `comment_add` call (and if every related node is
such a duplicate the pass issues no call at all), while a comment node
differing from every existing comment in timestamp or text issues its
call.
-/
theorem comment_pass_idempotent (H : Handlers) (ind : SIndicator) (led : Ledger)
    (kind : String) (obj : EntityRef)
    (hled : alistLookup led ind.id_ = some (kind, obj)) :
    parse_comments H [ind] led = ind.related.filterMap (comment_action H kind obj)
    ∧ (∀ rel ∈ ind.related,
        (∃ c ∈ H.get_comments obj kind, c.edit_date = rel.timestamp ∧ c.text = rel.description) →
        comment_action H kind obj rel = none)
    ∧ (∀ rel ∈ ind.related,
        (∀ c ∈ H.get_comments obj kind,
          ¬(c.edit_date = rel.timestamp ∧ c.text = rel.description)) →
        strContains "CRITs Comment(s)" rel.title = true →
        comment_action H kind obj rel
          = some ⟨rel.description,
              (match rel.short_description with | some s => s | none => toString obj),
              kind, obj, rel.timestamp,
              rel.producer_sources.foldl (fun _ s => some s) none⟩
        ∧ ∀ call, comment_action H kind obj rel = some call →
            call ∈ parse_comments H [ind] led)
    ∧ ((∀ rel ∈ ind.related,
         ∃ c ∈ H.get_comments obj kind, c.edit_date = rel.timestamp ∧ c.text = rel.description) →
        parse_comments H [ind] led = []) := by
  have hmain : parse_comments H [ind] led
      = ind.related.filterMap (comment_action H kind obj) := by
    rw [parse_comments, List.foldl_cons, List.foldl_nil,
      commentIndStep_some H led [] ind (kind, obj) hled]
    rw [foldl_step_filterMap (commentStep H (kind, obj).1 (kind, obj).2)
      (comment_action H (kind, obj).1 (kind, obj).2)
      (commentStep_eq H (kind, obj).1 (kind, obj).2) ind.related []]
    simp
  have hnone : ∀ rel ∈ ind.related,
      (∃ c ∈ H.get_comments obj kind, c.edit_date = rel.timestamp ∧ c.text = rel.description) →
      comment_action H kind obj rel = none := by
    intro rel _ hdup
    obtain ⟨c, hc, h1, h2⟩ := hdup
    rw [comment_action]
    split
    · have hsend : comment_send (H.get_comments obj kind) rel.timestamp rel.description
          ≠ true := by
        intro hs
        exact absurd ⟨h1, h2⟩ ((comment_send_spec _ _ _).1 hs c hc)
      rw [if_neg hsend]
    · rfl
  refine ⟨hmain, hnone, ?_, ?_⟩
  · intro rel hrel hall htitle
    have hsend : comment_send (H.get_comments obj kind) rel.timestamp rel.description
        = true := (comment_send_spec _ _ _).2 hall
    constructor
    · rw [comment_action, if_pos htitle]
      dsimp only
      rw [if_pos hsend]
    · intro call hcall
      rw [hmain]
      exact List.mem_filterMap.mpr ⟨rel, hrel, hcall⟩
  · intro hforall
    rw [hmain]
    rw [List.filterMap_eq_nil_iff]
    intro rel hrel
    exact hnone rel hrel (hforall rel hrel)

def commentHandlers8 : Handlers :=
  { baseHandlers with
      get_comments := fun o k => if o == 3 && k == "Indicator" then [⟨5, "hello"⟩] else [] }

def relDup8 : RelatedInd := ⟨"CRITs Comment", "hello", none, 5, []⟩

def indDup8 : SIndicator := ⟨"ind-8", "", [], [relDup8]⟩

def led8 : Ledger := [("ind-8", ("Indicator", 3))]

theorem comment_pass_idempotent_witness :
    comment_action commentHandlers8 "Indicator" 3 relDup8 = none
    ∧ parse_comments commentHandlers8 [indDup8] led8 = [] := by
  have h := comment_pass_idempotent commentHandlers8 indDup8 led8 "Indicator" 3 (by decide)
  refine ⟨h.2.1 relDup8 (by decide) ⟨⟨5, "hello"⟩, by decide, by decide, by decide⟩,
    h.2.2.2 ?_⟩
  intro rel hrel
  have hr : rel = relDup8 := by simpa [indDup8] using hrel
  rw [hr]
  exact ⟨⟨5, "hello"⟩, by decide, by decide, by decide⟩

/-! ### C5: address-shaped observables -/

theorem processItem_address (H : Handlers) (a b cat : String) (vs : List String)
    (st : WalkState) :
    processItem H a b (CyboxProps.address cat vs) st
      = (if addressCats.contains cat then vs.foldl (addrStep H a b cat) st else st, none) := by
  rw [processItem]
  rw [fallbackBranch, make_crits_object]
  simp

theorem addrStep_some (H : Handlers) (a b cat : String) (s : WalkState) (v ty : String)
    (h : H.get_crits_ip_type cat = some ty) :
    addrStep H a b cat s v = parse_res "IP" a b (H.ip_add_update (pyStrip v) ty) s := by
  rw [addrStep, h]

theorem parse_res_lookup (imp_type obsId obsTypeName : String) (res : PRes) (st : WalkState)
    (id : String) (kv : String × EntityRef)
    (h : alistLookup (parse_res imp_type obsId obsTypeName res st).imported id = some kv) :
    alistLookup st.imported id = some kv ∨ (id = obsId ∧ kv.1 = imp_type) := by
  rw [parse_res] at h
  revert h
  split
  · intro h
    rcases alistLookup_ledgerInsert_cases _ _ _ _ _ h with ⟨h1, h2⟩ | h1
    · exact Or.inr ⟨h1, by rw [h2]⟩
    · exact Or.inl h1
  · intro h
    exact Or.inl h

theorem addrFold_lookup (H : Handlers) (a b cat : String) :
    ∀ (vs : List String) (st : WalkState) (id : String) (kv : String × EntityRef),
      alistLookup (vs.foldl (addrStep H a b cat) st).imported id = some kv →
      alistLookup st.imported id = some kv ∨ kv.1 = "IP" := by
  intro vs
  induction vs with
  | nil => intro st id kv h; exact Or.inl h
  | cons v rest ih =>
      intro st id kv h
      rw [List.foldl_cons] at h
      rcases ih _ id kv h with h1 | h1
      · cases hty : H.get_crits_ip_type cat
        · rw [addrStep, hty] at h1
          exact Or.inl h1
        · rw [addrStep, hty] at h1
          rcases parse_res_lookup _ _ _ _ _ _ _ h1 with h2 | ⟨_, h3⟩
          · exact Or.inl h2
          · exact Or.inr h3
      · exact Or.inr h1

/--
C5.  An address-shaped observable never raises in `processItem`.  With an
unrecognised category the node is silently skipped: the state is returned
unchanged — contrary to the claim, no failure is recorded for it (see the
counterexample).  With a recognised category whose IP-subtype lookup
succeeds, the single value is imported as an IP carrying that subtype via
`ip_add_update`, with no failure.  In all cases the address shape adds
only "IP"-kind ledger entries, never an Indicator entry: the fallback
branch excludes the Address case.
-/
theorem address_category_spec (H : Handlers) (obsId obsTypeName cat : String)
    (vs : List String) (st : WalkState) :
    (processItem H obsId obsTypeName (CyboxProps.address cat vs) st).2 = none
    ∧ (addressCats.contains cat = false →
        processItem H obsId obsTypeName (CyboxProps.address cat vs) st = (st, none))
    ∧ (∀ v ty, addressCats.contains cat = true → vs = [v] →
        H.get_crits_ip_type cat = some ty →
        (H.ip_add_update (pyStrip v) ty).success = some true →
        (processItem H obsId obsTypeName (CyboxProps.address cat vs) st).1.imported
            = ledgerInsert obsId ("IP", (H.ip_add_update (pyStrip v) ty).object) st.imported
        ∧ (processItem H obsId obsTypeName (CyboxProps.address cat vs) st).1.failed
            = st.failed)
    ∧ (∀ id kv,
        alistLookup (processItem H obsId obsTypeName (CyboxProps.address cat vs) st).1.imported
            id = some kv →
        alistLookup st.imported id = some kv ∨ kv.1 = "IP") := by
  refine ⟨?_, ?_, ?_, ?_⟩
  · rw [processItem_address]
  · intro hcat
    rw [processItem_address, if_neg (by rw [hcat]; exact Bool.false_ne_true)]
  · intro v ty hcat hvs hty hsucc
    subst hvs
    rw [processItem_address, if_pos hcat, List.foldl_cons, List.foldl_nil,
      addrStep_some H obsId obsTypeName cat st v ty hty, parse_res]
    simp [hsucc]
  · intro id kv h
    rw [processItem_address] at h
    by_cases hcat : addressCats.contains cat
    · rw [if_pos hcat] at h
      exact addrFold_lookup H obsId obsTypeName cat vs st id kv h
    · rw [if_neg hcat] at h
      exact Or.inl h

/-- The C5 counterexample node: an address-shaped observable with the
unrecognised category "foo". -/
def addrObs5 : SObservable :=
  ⟨⟨"obs-5", "Observable", some ⟨"obj-5", some (.address "foo" ["1.2.3.4"])⟩⟩, none⟩

/--
C5 counterexample.  The claim states that an address-shaped node with an
unrecognised category fails classification *with a failure recorded for
it*.  Running the observable walk on such a node records no failure at
all (and imports nothing): the node is silently skipped.
-/
theorem address_unrecognized_counterexample :
    (parse_observables baseHandlers [addrObs5] initWalk).failed = []
    ∧ (parse_observables baseHandlers [addrObs5] initWalk).imported = []
    ∧ (parse_observables baseHandlers [addrObs5] initWalk) = initWalk := by
  decide

def ipHandlers5 : Handlers :=
  { baseHandlers with
      get_crits_ip_type := fun c => if c == "ipv4-addr" then some "Address - ipv4-addr" else none
      ip_add_update := fun _ _ => okPRes 11 }

theorem address_category_spec_witness :
    addressCats.contains "ipv4-addr" = true
    ∧ (processItem ipHandlers5 "o5" "Observable"
        (CyboxProps.address "ipv4-addr" ["203.0.113.5"]) initWalk).1.imported
        = [("o5", ("IP", 11))]
    ∧ processItem ipHandlers5 "o5" "Observable" (CyboxProps.address "bar" ["x"]) initWalk
        = (initWalk, none) := by
  have h1 := address_category_spec ipHandlers5 "o5" "Observable" "ipv4-addr"
    ["203.0.113.5"] initWalk
  have h2 := address_category_spec ipHandlers5 "o5" "Observable" "bar" ["x"] initWalk
  refine ⟨by decide, ?_, h2.2.1 (by decide)⟩
  have h3 := (h1.2.2.1 "203.0.113.5" "Address - ipv4-addr" (by decide) rfl (by decide)
    (by decide)).1
  rw [h3]
  decide

/-! ### C7: last-write-wins on multi-valued indicator nodes -/

/--
C7.  For an indicator node (no wrapper or campaign marker in its title)
whose single observable carries an object with several scalar values, the
indicator walk calls `handle_indicator_ind` once per non-empty value; the
ledger entry under the node id after the walk is the entity of the last
value whose call succeeded (earlier entities are overwritten; with no
success the entry is whatever it was before), and each submitted value
whose call fails appends exactly one failure record, leaving the other
values of the node unaffected.
-/
theorem indicator_last_write_wins (H : Handlers) (ind : SIndicator)
    (oid tyn coid t : String) (vs : List String) (st : WalkState)
    (h1 : strContains ind.title "Top-Level Object" = false)
    (h2 : strContains ind.title "MARTI Campaign" = false)
    (hobs : ind.observables = [⟨⟨oid, tyn, some ⟨coid, some (.other t vs)⟩⟩, none⟩])
    (ht : t ≠ "") :
    (parse_indicators H [ind] st).exn = none
    ∧ (parse_indicators H [ind] st).stopCampaign = false
    ∧ alistLookup (parse_indicators H [ind] st).st.imported ind.id_
        = (match lastSuccessValue H t vs with
           | some v => some ("Indicator", (H.handle_indicator_ind (pyStrip v) t).object)
           | none => alistLookup st.imported ind.id_)
    ∧ (parse_indicators H [ind] st).st.failed
        = st.failed ++ (failingValues H t vs).map
            (fun v => ((H.handle_indicator_ind (pyStrip v) t).message.getD "", "ObjectProperties",
              coid)) := by
  have hred : parse_indicators H [ind] st
      = ⟨processIndValues H ind.id_ "ObjectProperties" coid t vs st, none, false⟩ := by
    rw [parse_indicators]
    rw [if_neg (fun hc => by rw [h1] at hc; exact Bool.false_ne_true hc.2)]
    rw [if_neg (fun hc => by rw [h2] at hc; exact Bool.false_ne_true hc.2)]
    rw [hobs]
    rfl
  rw [hred]
  obtain ⟨s1, s2, s3⟩ := processIndValues_spec H ind.id_ "ObjectProperties" coid t ht vs st
  exact ⟨rfl, rfl, s1, s2⟩

def indHandlers7 : Handlers :=
  { baseHandlers with
      handle_indicator_ind := fun v _ =>
        if v == "1.2.3.4" then okPRes 17 else failPRes "bad value rejected" }

def multiInd7 : SIndicator :=
  ⟨"ind-7", "",
   [⟨⟨"o7", "Observable",
      some ⟨"obj-7", some (.other "IP Address" ["1.2.3.4", "bad value"])⟩⟩, none⟩],
   []⟩

theorem indicator_last_write_wins_witness :
    (parse_indicators indHandlers7 [multiInd7] initWalk).exn = none
    ∧ alistLookup (parse_indicators indHandlers7 [multiInd7] initWalk).st.imported multiInd7.id_
        = some ("Indicator", 17)
    ∧ (parse_indicators indHandlers7 [multiInd7] initWalk).st.failed
        = [("bad value rejected", "ObjectProperties", "obj-7")] := by
  have h := indicator_last_write_wins indHandlers7 multiInd7 "o7" "Observable" "obj-7"
    "IP Address" ["1.2.3.4", "bad value"] initWalk (by decide) (by decide) rfl (by decide)
  refine ⟨h.1, ?_, ?_⟩
  · rw [h.2.2.1]
    decide
  · rw [h.2.2.2]
    decide

/-! ### C4: top-level wrapper indicators transfer the embedded entry -/

/--
C4.  For a wrapper indicator (title containing "Top-Level Object") whose
embedded observable was successfully imported by the nested observable
walk, the indicator walk moves the imported (kind, entity) entry from the
embedded observable id to the wrapper indicator id: afterwards the ledger
holds exactly one entry under the wrapper id, equal to the imported
entry, and no entry under the embedded id.
-/
theorem wrapper_indicator_transfer (H : Handlers) (ind : SIndicator) (obs0 : SObservable)
    (tl : List SObservable) (st : WalkState) (entry : String × EntityRef)
    (hnd : nodupKeys st.imported)
    (ht : strContains ind.title "Top-Level Object" = true)
    (hobs : ind.observables = obs0 :: tl)
    (hne : ind.id_ ≠ obs0.leaf.id_)
    (hsucc : alistLookup (parse_observables H ind.observables st).imported obs0.leaf.id_
        = some entry) :
    (parse_indicators H [ind] st).exn = none
    ∧ alistLookup (parse_indicators H [ind] st).st.imported ind.id_ = some entry
    ∧ alistLookup (parse_indicators H [ind] st).st.imported obs0.leaf.id_ = none
    ∧ countKey (parse_indicators H [ind] st).st.imported ind.id_ = 1 := by
  have htitle : ind.title ≠ "" := by
    intro h0
    rw [h0] at ht
    exact absurd ht (by decide)
  rw [hobs] at hsucc
  have hnd1 : nodupKeys (parse_observables H (obs0 :: tl) st).imported :=
    parse_observables_nodup H (obs0 :: tl) st hnd
  have hpop2 : alistLookup (ledgerPop obs0.leaf.id_
      (parse_observables H (obs0 :: tl) st).imported).2 obs0.leaf.id_ = none :=
    alistLookup_ledgerPop_self _ _ hnd1
  have hndp := nodupKeys_ledgerPop obs0.leaf.id_
    (parse_observables H (obs0 :: tl) st).imported hnd1
  rw [parse_indicators, if_pos (And.intro htitle ht), hobs]
  dsimp only
  rw [ledgerPop_fst, hsucc]
  refine ⟨rfl, ?_, ?_, ?_⟩
  · show alistLookup (ledgerInsert ind.id_ entry (ledgerPop obs0.leaf.id_
      (parse_observables H (obs0 :: tl) st).imported).2) ind.id_ = some entry
    exact alistLookup_ledgerInsert_self _ _ _
  · show alistLookup (ledgerInsert ind.id_ entry (ledgerPop obs0.leaf.id_
      (parse_observables H (obs0 :: tl) st).imported).2) obs0.leaf.id_ = none
    rw [alistLookup_ledgerInsert_ne _ _ _ _ (Ne.symm hne)]
    exact hpop2
  · show countKey (ledgerInsert ind.id_ entry (ledgerPop obs0.leaf.id_
      (parse_observables H (obs0 :: tl) st).imported).2) ind.id_ = 1
    exact countKey_eq_one _ _ entry (nodupKeys_ledgerInsert _ _ _ hndp)
      (alistLookup_ledgerInsert_self _ _ _)

def wrapHandlers4 : Handlers := { baseHandlers with upsert_domain := fun _ => okPRes 21 }

def wrapObs4 : SObservable :=
  ⟨⟨"obs-4", "Observable", some ⟨"obj-4", some (.domainName ["example.com"])⟩⟩, none⟩

def wrapInd4 : SIndicator := ⟨"ind-4", "CRITs: Top-Level Object wrapper", [wrapObs4], []⟩

theorem wrapper_indicator_transfer_witness :
    (parse_indicators wrapHandlers4 [wrapInd4] initWalk).exn = none
    ∧ alistLookup (parse_indicators wrapHandlers4 [wrapInd4] initWalk).st.imported wrapInd4.id_
        = some ("Domain", 21)
    ∧ alistLookup (parse_indicators wrapHandlers4 [wrapInd4] initWalk).st.imported
        wrapObs4.leaf.id_ = none
    ∧ countKey (parse_indicators wrapHandlers4 [wrapInd4] initWalk).st.imported wrapInd4.id_
        = 1 :=
  wrapper_indicator_transfer wrapHandlers4 wrapInd4 wrapObs4 [] initWalk ("Domain", 21)
    (by unfold nodupKeys; decide) (by decide) rfl (by decide) (by decide)

/-! ### C1: source resolution order and the no-entity precondition -/

/--
C1.  For every import run: if the caller-supplied source override is a
recognised source it becomes the attribution source; otherwise if the
document-declared information-source name is a recognised source it
becomes the attribution source; otherwise `parse_stix` raises the fatal
"No source to attribute data to." error, and the run has created no
entity: the ledger is empty, no failure was recorded, no Event exists and
no source instance was attached — the check precedes event creation and
every walk.
-/
theorem stix_source_resolution (H : Handlers) (pkg : PackageModel) (reference : String)
    (make_event : Bool) (source analyst method : String) :
    (H.does_source_exist source = true →
      (parse_stix H pkg reference make_event source analyst method).source_name = some source)
    ∧ (H.does_source_exist source = false →
        doesSourceExistOpt H pkg.headerInfoSource = true →
        (parse_stix H pkg reference make_event source analyst method).source_name
          = pkg.headerInfoSource)
    ∧ (H.does_source_exist source = false →
        doesSourceExistOpt H pkg.headerInfoSource = false →
        (parse_stix H pkg reference make_event source analyst method).fatal
            = some "No source to attribute data to."
        ∧ (parse_stix H pkg reference make_event source analyst method).walk.imported = []
        ∧ (parse_stix H pkg reference make_event source analyst method).walk.failed = []
        ∧ (parse_stix H pkg reference make_event source analyst method).event = none
        ∧ (parse_stix H pkg reference make_event source analyst method).instances = []) := by
  refine ⟨?_, ?_, ?_⟩
  · intro hov
    rw [parse_stix, parse_stix_sources, if_pos hov]
    dsimp only
    repeat' split
    all_goals simp [finishWalks]
  · intro hov hinfo
    cases hi : pkg.headerInfoSource with
    | none => rw [hi] at hinfo; exact absurd hinfo (by simp [doesSourceExistOpt])
    | some name =>
        rw [parse_stix, parse_stix_sources,
          if_neg (by rw [hov]; exact Bool.false_ne_true), if_pos hinfo]
        rw [hi]
        dsimp only
        repeat' split
        all_goals simp [finishWalks]
  · intro hov hinfo
    rw [parse_stix, parse_stix_sources,
      if_neg (by rw [hov]; exact Bool.false_ne_true),
      if_neg (by rw [hinfo]; exact Bool.false_ne_true)]
    exact ⟨rfl, rfl, rfl, rfl, rfl⟩

def noSourcePkg : PackageModel :=
  ⟨"pkg-1", true, some "Unknown Feed", none, [], [], [goodInd6], [], [], []⟩

theorem stix_source_resolution_witness :
    (parse_stix baseHandlers noSourcePkg "r" true "override" "an" "m").fatal
        = some "No source to attribute data to."
    ∧ (parse_stix baseHandlers noSourcePkg "r" true "override" "an" "m").walk.imported = []
    ∧ (parse_stix baseHandlers noSourcePkg "r" true "override" "an" "m").walk.failed = []
    ∧ (parse_stix baseHandlers noSourcePkg "r" true "override" "an" "m").event = none
    ∧ (parse_stix baseHandlers noSourcePkg "r" true "override" "an" "m").instances = [] :=
  (stix_source_resolution baseHandlers noSourcePkg "r" true "override" "an" "m").2.2
    rfl rfl

/-! ### C9: the reference note -/

/--
C9 (amended).  On successful source resolution the run attaches exactly
one source instance, whose reference is the caller-supplied string with
the note "STIX Source: name" *appended* (after a comma when the caller
string is non-empty) whenever the document declares a non-empty
information-source name — regardless of whether that name equals the
chosen source; when no non-empty declared name exists, the reference is
the caller-supplied string unchanged.
-/
theorem stix_reference_note (H : Handlers) (pkg : PackageModel) (reference : String)
    (make_event : Bool) (source analyst method : String)
    (hres : H.does_source_exist source = true
      ∨ doesSourceExistOpt H pkg.headerInfoSource = true) :
    (parse_stix H pkg reference make_event source analyst method).instances
      = [(analyst, method, build_reference reference pkg.headerInfoSource)]
    ∧ (∀ name, pkg.headerInfoSource = some name → name ≠ "" →
        build_reference reference pkg.headerInfoSource
          = (if reference = "" then "" else reference ++ ", ") ++ ("STIX Source: " ++ name))
    ∧ (pkg.headerInfoSource = none ∨ pkg.headerInfoSource = some "" →
        build_reference reference pkg.headerInfoSource = reference) := by
  refine ⟨?_, ?_, ?_⟩
  · by_cases hov : H.does_source_exist source = true
    · rw [parse_stix, parse_stix_sources, if_pos hov]
      dsimp only
      repeat' split
      all_goals simp [finishWalks]
    · have hinfo : doesSourceExistOpt H pkg.headerInfoSource = true := by
        rcases hres with h | h
        · exact absurd h hov
        · exact h
      rw [parse_stix, parse_stix_sources,
        if_neg hov, if_pos hinfo]
      dsimp only
      repeat' split
      all_goals simp [finishWalks]
  · intro name hn hne
    rw [hn, build_reference]
    simp [hne]
  · intro h
    rcases h with h | h <;> simp [h, build_reference]

def fooHandlers9 : Handlers :=
  { baseHandlers with does_source_exist := fun s => s == "FooSrc" }

def fooPkg9 : PackageModel := ⟨"pkg-9", true, some "FooSrc", none, [], [], [], [], [], []⟩

/--
C9 counterexample.  The claim says the note is added only when the
declared information-source name differs from the chosen source name, and
that when they are equal the reference is the caller-supplied string
unchanged.  Here the declared name "FooSrc" *is* the chosen source, yet
the stored reference is "ref, STIX Source: FooSrc", not "ref" — and the
note is a suffix, not a prefix.
-/
theorem stix_reference_note_counterexample :
    (parse_stix fooHandlers9 fooPkg9 "ref" false "" "an" "m").source_name = some "FooSrc"
    ∧ (parse_stix fooHandlers9 fooPkg9 "ref" false "" "an" "m").instances
        = [("an", "m", "ref, STIX Source: FooSrc")]
    ∧ "ref, STIX Source: FooSrc" ≠ "ref" := by
  refine ⟨by decide, by decide, by decide⟩

theorem stix_reference_note_witness :
    (parse_stix fooHandlers9 fooPkg9 "ref" false "" "an" "m").instances
      = [("an", "m", build_reference "ref" (some "FooSrc"))]
    ∧ build_reference "ref" (some "FooSrc")
        = (if "ref" = "" then "" else "ref" ++ ", ") ++ ("STIX Source: " ++ "FooSrc") := by
  have h := stix_reference_note fooHandlers9 fooPkg9 "ref" false "" "an" "m"
    (Or.inr (by decide))
  exact ⟨h.1, h.2.1 "FooSrc" rfl (by decide)⟩
